import Mathlib

/-!
Verification of the minimal-cms-core backend specification against a shallow
embedding of the repository's Python source.

Conventions of the embedding:
* UUIDs are modelled as `Nat`; timezone-aware datetimes as `Int` (seconds).
* Python's dynamic typing of exception fields is modelled by `PyVal`.
* Fallible Python code is modelled with `Except PyError`.
* The unbounded `while True` loop of `generate_unique_slug` is modelled with
  explicit fuel; theorems show the chosen fuel suffices.
-/

/-- A dynamically-typed Python value (only the shapes the code actually
stores in the modelled fields). -/
inductive PyVal where
  | pynone : PyVal
  | pyint : Int → PyVal
  | pystr : String → PyVal
  | pybool : Bool → PyVal
deriving DecidableEq

/-- Python exceptions raised by the modelled code.
`appExc` covers the `BaseAppException` hierarchy of
`shared/errors/exceptions.py` (class name, message, `status_code` field);
`sqlAlchemyError` stands for any `SQLAlchemyError`;
`pydanticValidationError` is the error raised by a failing pydantic schema
validation; `dbConnectionError` is `DatabaseConnectionError` from
`infrastructure/database/exceptions.py`, which keeps the original error. -/
inductive PyError where
  | appExc : String → String → PyVal → PyError
  | sqlAlchemyError : String → PyError
  | pydanticValidationError : String → PyError
  | dbConnectionError : String → PyError → PyError
deriving DecidableEq

deriving instance DecidableEq for Except

/-- `BaseAppException(message, status_code=500)` (default applied at call sites). -/
def BaseAppException (message : String) (status_code : PyVal) : PyError :=
  .appExc "BaseAppException" message status_code

/-- `BadRequestError(message, status_code=400, details=None)`.
The second positional parameter of the constructor is `status_code`. -/
def BadRequestError (message : String) (status_code : PyVal) : PyError :=
  .appExc "BadRequestError" message status_code

/-- `NotFoundError(message="Not Found")`: fixed `status_code` 404. -/
def NotFoundError (message : String) : PyError :=
  .appExc "NotFoundError" message (.pyint 404)

/-- `ConflictError(message="Conflict")`: fixed `status_code` 409. -/
def ConflictError (message : String) : PyError :=
  .appExc "ConflictError" message (.pyint 409)

/-- `UnauthorizedError(message="Unauthorized")`: fixed `status_code` 401. -/
def UnauthorizedError (message : String) : PyError :=
  .appExc "UnauthorizedError" message (.pyint 401)

/-- The `status_code` field of a raised application error, as read by the
`BaseAppException` handler installed in `main.py`. -/
def PyError.statusCode : PyError → PyVal
  | .appExc _ _ s => s
  | .sqlAlchemyError _ => .pynone
  | .pydanticValidationError _ => .pynone
  | .dbConnectionError _ _ => .pynone

/- ============================================================
   shared/utils/image_validation.py
   ============================================================ -/

/-- `ALLOWED_IMAGE_TYPES = ["image/jpeg", "image/png", "image/webp"]` -/
def ALLOWED_IMAGE_TYPES : List String := ["image/jpeg", "image/png", "image/webp"]

/-- `MAX_IMAGE_SIZE_BYTES = 5 * 1024 * 1024` -/
def MAX_IMAGE_SIZE_BYTES : Nat := 5 * 1024 * 1024

/-- The text produced by Python for
`f"Allowed types: {ALLOWED_IMAGE_TYPES}"` (a Python list renders with
square brackets and single-quoted elements). -/
def allowedTypesText : String :=
  "Allowed types: ['image/jpeg', 'image/png', 'image/webp']"

/-- A FastAPI `UploadFile` as used by the validation and upload code:
declared content type, client-supplied file name, and the byte content
returned by `file.read()`. -/
structure UploadFile where
  content_type : String
  filename : String
  contents : List UInt8
deriving DecidableEq

/-- `validate_image_file(file)` from `shared/utils/image_validation.py`.

```
if file.content_type not in ALLOWED_IMAGE_TYPES:
    raise BadRequestError(
        f"Invalid content type: {file.content_type}",
        f"Allowed types: {ALLOWED_IMAGE_TYPES}")
contents = await file.read()
if len(contents) > MAX_IMAGE_SIZE_BYTES:
    raise BadRequestError(f"File '{file.filename}' exceeds maximum size of 5MB")
return contents
```
The first raise passes the allowed-types text as the second positional
argument, which is the `status_code` parameter of `BadRequestError`;
the second raise leaves `status_code` at its default `400`. -/
def validate_image_file (file : UploadFile) : Except PyError (List UInt8) :=
  if ALLOWED_IMAGE_TYPES.contains file.content_type = false then
    .error (BadRequestError ("Invalid content type: " ++ file.content_type)
      (.pystr allowedTypesText))
  else if file.contents.length > MAX_IMAGE_SIZE_BYTES then
    .error (BadRequestError ("File '" ++ file.filename ++ "' exceeds maximum size of 5MB")
      (.pyint 400))
  else
    .ok file.contents

/- ============================================================
   features/auth/schemas.py
   ============================================================ -/

/-- `validate_password(v)` from `features/auth/schemas.py`: at least 8
characters, at least one of each of `[A-Z]`, `[a-z]`, `\d`. -/
def validate_password (v : String) : Except String String :=
  if v.length < 8 then .error "Password must be at least 8 characters"
  else if v.data.any Char.isUpper = false then
    .error "Password must contain at least one uppercase letter"
  else if v.data.any Char.isLower = false then
    .error "Password must contain at least one lowercase letter"
  else if v.data.any Char.isDigit = false then
    .error "Password must contain at least one digit"
  else .ok v

/-- Modelled from the spec: pydantic's `EmailStr` is an external library
check; the model only needs some executable stand-in, since the claims
never depend on which e-mail addresses pass. -/
def emailStrOk (v : String) : Bool :=
  v.data.any (fun c => c = '@')

/-- Outcome of submitting a body to `POST /auth/signin`: either the
schema boundary rejects it, or the handler runs and forwards the
credentials to the identity service for verification. -/
inductive SignInOutcome where
  | schemaRejected : String → SignInOutcome
  | credentialCheck : String → String → SignInOutcome
deriving DecidableEq

/-- `SignInRequest` field validation (`email: EmailStr`,
`password: ValidatedPassword`), in declaration order, followed by the
handler's identity-service call. `ValidatedPassword` applies
`validate_password`, the same function `SignUpRequest` uses. -/
def signInRequestFlow (email password : String) : SignInOutcome :=
  if emailStrOk email = false then .schemaRejected "value is not a valid email address"
  else
    match validate_password password with
    | .error m => .schemaRejected m
    | .ok p => .credentialCheck email p

/-- The password validator attached to `SignUpRequest.password`
(the schema uses the same `ValidatedPassword` annotated type). -/
def signUpPasswordValidator : String → Except String String := validate_password

/-- The password validator attached to `SignInRequest.password`. -/
def signInPasswordValidator : String → Except String String := validate_password

/- ============================================================
   core/config.py
   ============================================================ -/

/-- The fields declared on the `Settings` class in `core/config.py`
(and no others; in particular no `CORS_ORIGINS`, `REDIS_HOST` or
`REDIS_PORT`, although `main.py` and `redis_client.py` read those
attributes from the `settings` object). -/
def settingsDeclaredFields : List String :=
  ["DB_USER", "DB_PASS", "DB_HOST", "DB_PORT", "DB_NAME", "DB_URL",
   "TEST_DB_URL", "ENVIRONMENT", "SUPABASE_URL", "SUPABASE_ANON_KEY",
   "SUPABASE_SERVICE_ROLE_KEY", "SUPABASE_JWT_SECRET"]

/-- `re.search(r"\d+$", s)` succeeds exactly when `s` ends in a digit
(pydantic's `pattern` constraint is unanchored at the front). -/
def patternDigitsAtEnd (s : String) : Bool :=
  match s.data.getLast? with
  | some c => c.isDigit
  | none => false

/-- Presence and per-field constraints that instantiating `Settings`
would check: every declared field required; `DB_PASS` min length 1;
`DB_PORT` matching `r"\d+$"`; `DB_NAME` min length 1. All other fields
are unconstrained strings (`ENVIRONMENT` has no value restriction). -/
def settingsFieldOk (env : List (String × String)) (field : String) : Bool :=
  match env.lookup field with
  | none => false
  | some v =>
    if field = "DB_PASS" then decide (1 ≤ v.length)
    else if field = "DB_PORT" then patternDigitsAtEnd v
    else if field = "DB_NAME" then decide (1 ≤ v.length)
    else true

/-- Validation performed by constructing `Settings(**env)`: all declared
fields must be present and satisfy their constraints. -/
def settingsValidate (env : List (String × String)) : Bool :=
  settingsDeclaredFields.all (settingsFieldOk env)

/-- What the module-level statement on the last line of `core/config.py`
binds: `settings = Settings` binds the class object itself; it never
constructs an instance, so `settingsValidate` is not run at import time. -/
inductive SettingsBinding where
  | classObject : SettingsBinding
  | validatedInstance : List (String × String) → SettingsBinding
deriving DecidableEq

/-- The binding made by `settings = Settings` in `core/config.py`. -/
def settingsModuleBinding : SettingsBinding := .classObject

/-- A concrete environment supplying every field `Settings` declares,
with values passing every declared constraint, but no `CORS_ORIGINS`
and no cache-store (`REDIS_HOST`/`REDIS_PORT`) values. -/
def envWithoutCors : List (String × String) :=
  [("DB_USER", "app"), ("DB_PASS", "secret"), ("DB_HOST", "db"),
   ("DB_PORT", "5432"), ("DB_NAME", "cms"), ("DB_URL", "postgresql+asyncpg://x"),
   ("TEST_DB_URL", "postgresql+asyncpg://t"), ("ENVIRONMENT", "development"),
   ("SUPABASE_URL", "https://x.supabase.co"), ("SUPABASE_ANON_KEY", "anon"),
   ("SUPABASE_SERVICE_ROLE_KEY", "service"), ("SUPABASE_JWT_SECRET", "jwt")]

/-- The same environment with a `DB_PORT` that is not digits-only but
still matches the unanchored pattern `r"\d+$"`. -/
def envWithBadPort : List (String × String) :=
  ("DB_PORT", "port5432") :: envWithoutCors.filter (fun kv => kv.1 ≠ "DB_PORT")

/- ============================================================
   infrastructure/database/session.py — get_db
   ============================================================ -/

/-- Observable effects on the request-scoped session. -/
structure SessionTrace where
  committed : Bool
  rolledBack : Bool
  closed : Bool
deriving DecidableEq

/-- `get_db()` from `infrastructure/database/session.py`, applied to the
outcome of the request handler that ran on the yielded session:

```
try:
    yield session
    await session.commit()
except SQLAlchemyError as e:
    await session.rollback()
    raise DatabaseConnectionError(f"Database operation failed: {str(e)}", original_error=e)
except Exception as e:
    await session.rollback()
    raise
finally:
    await session.close()
```
Only `SQLAlchemyError` is re-raised wrapped as `DatabaseConnectionError`;
every other exception is rolled back and re-raised unchanged. -/
def get_db (handler : Except PyError Nat) : Except PyError Nat × SessionTrace :=
  match handler with
  | .ok v => (.ok v, ⟨true, false, true⟩)
  | .error (.sqlAlchemyError m) =>
    (.error (.dbConnectionError ("Database operation failed: " ++ m) (.sqlAlchemyError m)),
      ⟨false, true, true⟩)
  | .error e => (.error e, ⟨false, true, true⟩)

/-- Whether a raised error is a `DatabaseConnectionError` (a "connection
error" in the spec's words). -/
def errIsConnectionError : Except PyError Nat → Bool
  | .error (.dbConnectionError _ _) => true
  | _ => false

/- ============================================================
   infrastructure/database/base_repository.py — update
   ============================================================ -/

/-- A persisted instance, as the dynamic attribute map the repository
mutates through `setattr`: field name to current (possibly `None`) value. -/
def Instance : Type := List (String × PyVal)

/-- `setattr(db_obj, key, value)` on the attribute map. -/
def setattrOn (obj : Instance) (key : String) (value : PyVal) : Instance :=
  obj.map (fun kv => if kv.1 = key then (kv.1, value) else kv)

/-- `hasattr(db_obj, key)`. -/
def hasattrOn (obj : Instance) (key : String) : Bool :=
  obj.any (fun kv => kv.1 = key)

/-- `BaseRepository.update(db_obj, **data)` (success path):

```
for key, value in data.items():
    if hasattr(db_obj, key) and value is not None:
        setattr(db_obj, key, value)
```
Fields supplied as `None` and keys the instance lacks are skipped. -/
def repository_update (db_obj : Instance) (data : List (String × PyVal)) : Instance :=
  data.foldl
    (fun obj kv =>
      if hasattrOn obj kv.1 = true ∧ kv.2 ≠ .pynone then setattrOn obj kv.1 kv.2 else obj)
    db_obj

/-- The `PATCH` service layer (`EventService.update_event`,
`AlbumService.update_album`) passes `data.model_dump(exclude_unset=True)`,
i.e. exactly the explicitly supplied fields, to `repository_update`. -/
def patch_update (db_obj : Instance) (supplied : List (String × PyVal)) : Instance :=
  repository_update db_obj supplied

/- ============================================================
   main.py — application-level error mapping
   ============================================================ -/

/-- The HTTP status produced when a handler raises `e`: `main.py` installs
an exception handler only for `BaseAppException` (responding with the
exception's own integer `status_code`); any other exception — including a
pydantic `ValidationError` raised inside a handler — is unhandled and
surfaces as a plain 500 server error. -/
def appHandledStatus : PyError → Int
  | .appExc _ _ (.pyint s) => s
  | _ => 500

/- ============================================================
   infrastructure/database/user_repository.py — slugs
   ============================================================ -/

/-- A row as seen by slug probing: its unique slug column and owner id. -/
structure SlugRecord where
  slug : String
  user_id : Nat
deriving DecidableEq

/-- `get_by_slug(slug, user_id=None)` from `UserScopeRepository`:
select by the slug column, adding the owner filter only when a user id
is supplied. -/
def get_by_slug (records : List SlugRecord) (slug : String) (user_id : Option Nat) :
    Option SlugRecord :=
  records.find? (fun r =>
    r.slug == slug &&
      (match user_id with
       | none => true
       | some u => r.user_id == u))

/-- Split a character list at every non-alphanumeric character (the
pieces between separators, possibly empty). -/
def slugWords : List Char → List (List Char)
  | [] => [[]]
  | c :: rest =>
    let ws := slugWords rest
    if c.isAlphanum then
      match ws with
      | [] => [[c]]
      | w :: tail => (c :: w) :: tail
    else [] :: ws

/-- Modelled from the spec: `slugify` is the external slug-generation
helper (§6: "lower-case, hyphenate, strip non-alphanumerics"): lower-case
the text, split at non-alphanumeric characters, drop empty pieces, join
the words with hyphens. -/
def slugify (s : String) : String :=
  String.intercalate "-"
    (((slugWords (s.data.map Char.toLower)).map String.mk).filter (fun w => w ≠ ""))

/-- The candidates `generate_unique_slug` probes, in order: the base slug
itself, then `base-1`, `base-2`, … (Python renders the counter in
decimal, i.e. `Nat.repr`). -/
def slugCandidate (base : String) : Nat → String
  | 0 => base
  | k + 1 => base ++ "-" ++ Nat.repr (k + 1)

/-- The `while True` loop body of `generate_unique_slug`, with explicit
fuel standing in for the unbounded loop. Returns the chosen slug together
with the number of `get_by_slug` probes performed (the loop's `counter`
variable at exit), or `none` if the fuel ran out.

```
while True:
    existing = await self.get_by_slug(slug, user_id)
    if not existing:
        break
    slug = f"{base_slug}-{counter}"
    counter += 1
return slug
``` -/
def slugLoop (records : List SlugRecord) (user_id : Option Nat) (base : String) :
    Nat → String → Nat → Option (String × Nat)
  | 0, _, _ => none
  | fuel + 1, slug, counter =>
    match get_by_slug records slug user_id with
    | none => some (slug, counter)
    | some _ => slugLoop records user_id base fuel (base ++ "-" ++ Nat.repr counter) (counter + 1)

/-- `generate_unique_slug(base_text, user_id=None)`: slugify the base
text and probe candidates until free. Fuel `records.length + 1` is shown
sufficient by `slugLoop_finds_first_free` below. -/
def generate_unique_slug (records : List SlugRecord) (base_text : String)
    (user_id : Option Nat) : Option (String × Nat) :=
  slugLoop records user_id (slugify base_text) (records.length + 1) (slugify base_text) 1

/-- Candidate `k` is free: probing it finds no existing record. -/
def slugFree (records : List SlugRecord) (user_id : Option Nat) (base : String)
    (k : Nat) : Bool :=
  (get_by_slug records (slugCandidate base k) user_id).isNone

/- ============================================================
   features/events — schemas.py, service.py, router.py
   ============================================================ -/

/-- `validate_datetime(v)` from `features/events/schemas.py`, with the
current time passed explicitly:

```
if v < datetime.now(timezone.utc):
    raise ValueError("Date & time cannot be in the past")
return v
``` -/
def validate_datetime (now : Int) (v : Int) : Except String Int :=
  if v < now then .error "Date & time cannot be in the past" else .ok v

/-- The field payload of an event-creation request (the JSON carried in
the multipart `data` form field). -/
structure EventCreateRaw where
  title : String
  summary : String
  content : String
  start_at : Int
  end_at : Int
  location : String
  location_url : String
  is_published : Bool
deriving DecidableEq

/-- `EventCreate.model_validate_json(data)`: pydantic field checks of
`EventBase`/`EventCreate` — title 3–150, summary 3–255, content ≥ 3,
and `validate_datetime` applied to `start_at` and `end_at`. A failing
check raises a pydantic `ValidationError`. -/
def eventCreateValidate (now : Int) (raw : EventCreateRaw) :
    Except PyError EventCreateRaw :=
  if raw.title.length < 3 ∨ 150 < raw.title.length then
    .error (.pydanticValidationError "title")
  else if raw.summary.length < 3 ∨ 255 < raw.summary.length then
    .error (.pydanticValidationError "summary")
  else if raw.content.length < 3 then
    .error (.pydanticValidationError "content")
  else
    match validate_datetime now raw.start_at with
    | .error m => .error (.pydanticValidationError m)
    | .ok _ =>
      match validate_datetime now raw.end_at with
      | .error m => .error (.pydanticValidationError m)
      | .ok _ => .ok raw

/-- A persisted `events` row (the columns the claims touch). -/
structure EventRow where
  user_id : Nat
  slug : String
  title : String
  summary : String
  content : String
  cover_image : Option String
  start_at : Int
  end_at : Int
  location : String
  location_url : String
  is_published : Bool
deriving DecidableEq

/-- The slug column view of the events table, as `get_by_slug` sees it. -/
def eventSlugRecords (rows : List EventRow) : List SlugRecord :=
  rows.map (fun r => ⟨r.slug, r.user_id⟩)

/-- `EventService.add_event` (no-cover-file path): generate a slug unique
among this user's events, persist the row. -/
def add_event (rows : List EventRow) (user_id : Nat) (data : EventCreateRaw) :
    Except PyError (EventRow × List EventRow) :=
  match generate_unique_slug (eventSlugRecords rows) data.title (some user_id) with
  | none => .error (BaseAppException "Failed to save event" (.pyint 500))
  | some (slug, _) =>
    let row : EventRow :=
      ⟨user_id, slug, data.title, data.summary, data.content, none,
        data.start_at, data.end_at, data.location, data.location_url, data.is_published⟩
    .ok (row, rows ++ [row])

/-- `POST /events/` (`create_event` in `features/events/router.py`):
the handler itself calls `EventCreate.model_validate_json(data)`; a
pydantic `ValidationError` raised there is not a `BaseAppException`, so
it propagates unhandled (`appHandledStatus`). On success the service
persists the row and the route responds 201. Returns the HTTP status and
the resulting events table. -/
def create_event_endpoint (now : Int) (rows : List EventRow) (user_id : Nat)
    (data : EventCreateRaw) : Int × List EventRow :=
  match eventCreateValidate now data with
  | .error e => (appHandledStatus e, rows)
  | .ok d =>
    match add_event rows user_id d with
    | .error e => (appHandledStatus e, rows)
    | .ok (_, rows') => (201, rows')

/-- A concrete event-creation payload whose `start_at` (50) lies in the
past relative to the clock value 100 used in the counterexample. -/
def pastEventPayload : EventCreateRaw :=
  ⟨"Past event", "An event in the past", "Full content", 50, 200,
    "Main Hall", "https://maps.example.com/x", true⟩

/- ============================================================
   features/gallery — models, service.py
   ============================================================ -/

/-- A persisted `album` row. -/
structure AlbumRow where
  id : Nat
  user_id : Nat
  title : String
  slug : String
  cover_url : Option String
  is_published : Bool
deriving DecidableEq

/-- A persisted `images` row. -/
structure ImageRow where
  id : Nat
  user_id : Nat
  album_id : Nat
  image_url : String
  slug : String
  width : Nat
  height : Nat
deriving DecidableEq

/-- The album and image tables. -/
structure GalleryState where
  albums : List AlbumRow
  images : List ImageRow
deriving DecidableEq

/-- Python truthiness of an optional string column: `not album.cover_url`
is true for `None` and for the empty string. -/
def pyStrOptFalsy : Option String → Bool
  | none => true
  | some s => s.isEmpty

/-- The slug column view of the images table. -/
def imageSlugRecords (images : List ImageRow) : List SlugRecord :=
  images.map (fun r => ⟨r.slug, r.user_id⟩)

/-- `file.content_type.split('/')[-1]`: the suffix after the last
slash (the whole string when no slash occurs). -/
def contentTypeExtension (ct : String) : String :=
  String.mk (ct.data.foldl (fun acc c => if c = '/' then [] else acc ++ [c]) [])

/-- `AlbumRepository.get_by_user_and_id` on the album table. -/
def get_album_by_user_and_id (st : GalleryState) (user_id album_id : Nat) :
    Option AlbumRow :=
  st.albums.find? (fun a => a.user_id == user_id && a.id == album_id)

/-- `self.album_repo.update(album, cover_url=image_response.image_url)`. -/
def setAlbumCover (st : GalleryState) (album_id : Nat) (url : String) : GalleryState :=
  { st with
    albums :=
      st.albums.map (fun a => if a.id = album_id then { a with cover_url := some url } else a) }

/-- `ImageService._process_single_image(user_id, album_id, album_title, file)`:
validate the file, decode its dimensions (`decode` models the external
PIL codec; failure raises BadRequest "Could not process image…"),
generate a unique slug from the album title (no user scoping), upload to
storage under `{user_id}/Gallery/{slug}.{extension}` (`storageUrl` models
the external storage client, mapping the object key to its public URL),
and persist the image row. -/
def process_single_image (storageUrl : String → String)
    (decode : List UInt8 → Option (Nat × Nat))
    (st : GalleryState) (user_id album_id : Nat) (album_title : String)
    (file : UploadFile) : Except PyError (ImageRow × GalleryState) :=
  match validate_image_file file with
  | .error e => .error e
  | .ok contents =>
    match decode contents with
    | none => .error (BadRequestError "Could not process image. File may be corrupted." (.pyint 400))
    | some wh =>
      match generate_unique_slug (imageSlugRecords st.images) album_title none with
      | none => .error (BaseAppException "Failed to save image to database" (.pyint 500))
      | some (slug, _) =>
        let image_url :=
          storageUrl (Nat.repr user_id ++ "/Gallery/" ++ slug ++ "." ++
            contentTypeExtension file.content_type)
        let row : ImageRow :=
          ⟨st.images.length, user_id, album_id, image_url, slug, wh.1, wh.2⟩
        .ok (row, { st with images := st.images ++ [row] })

/-- The `for i, file in enumerate(files)` loop of `upload_images`:
process each file in order; after processing the file at index 0, if the
fetched album object had a falsy `cover_url`, set the album's cover to
that image's URL. -/
def uploadFilesGo (storageUrl : String → String)
    (decode : List UInt8 → Option (Nat × Nat))
    (user_id album_id : Nat) (album_title : String) (coverFalsy : Bool) :
    List UploadFile → Nat → GalleryState →
    Except PyError (List ImageRow × GalleryState)
  | [], _, st => .ok ([], st)
  | f :: fs, i, st =>
    match process_single_image storageUrl decode st user_id album_id album_title f with
    | .error e => .error e
    | .ok (row, st') =>
      let st'' := if i = 0 ∧ coverFalsy = true then setAlbumCover st' album_id row.image_url else st'
      match uploadFilesGo storageUrl decode user_id album_id album_title coverFalsy fs (i + 1) st'' with
      | .error e => .error e
      | .ok (rows, stF) => .ok (row :: rows, stF)

/-- `ImageService.upload_images(user_id, album_id, files)`: verify album
ownership (`NotFoundError` otherwise), then process the files strictly in
order. -/
def upload_images (storageUrl : String → String)
    (decode : List UInt8 → Option (Nat × Nat))
    (st : GalleryState) (user_id album_id : Nat) (files : List UploadFile) :
    Except PyError (List ImageRow × GalleryState) :=
  match get_album_by_user_and_id st user_id album_id with
  | none => .error (NotFoundError "Album not found")
  | some album =>
    uploadFilesGo storageUrl decode user_id album_id album.title
      (pyStrOptFalsy album.cover_url) files 0 st

/-- Modelled from the spec: `ImageService.delete_image(user_id, image_id)`
is invoked by `DELETE /image/{image_id}` in `features/gallery/router.py`
and exercised by `test_gallery.py`, but its definition is absent from the
packaged `features/gallery/service.py` (only its caller and tests are
present). Per the spec it is an ownership-checked delete: `NotFoundError`
when no image with that id owned by that user exists, otherwise it
removes that image row (no storage cleanup — spec §9). -/
def delete_image (st : GalleryState) (user_id image_id : Nat) :
    Except PyError GalleryState :=
  match st.images.find? (fun im => im.user_id == user_id && im.id == image_id) with
  | none => .error (NotFoundError "Image not found")
  | some _ =>
    .ok { st with
      images := st.images.eraseP (fun im => im.user_id == user_id && im.id == image_id) }

/-- `DELETE /image/{image_id}`: 204 on success, otherwise the raised
application error's status (404 for `NotFoundError`). -/
def delete_image_endpoint (st : GalleryState) (user_id image_id : Nat) :
    Int × GalleryState :=
  match delete_image st user_id image_id with
  | .ok st' => (204, st')
  | .error e => (appHandledStatus e, st)

/- ============================================================
   Observation helpers for the theorems
   ============================================================ -/

/-- Whether the sign-in flow reached the identity-service credential
check (i.e. the handler body ran). -/
def SignInOutcome.reachesIdentityService : SignInOutcome → Bool
  | .credentialCheck _ _ => true
  | .schemaRejected _ => false

/-- A request handler failing with the application's `NotFoundError`
("Event not found"), as raised by e.g. `EventService.get_event`. -/
def notFoundHandlerOutcome : Except PyError Nat :=
  .error (.appExc "NotFoundError" "Event not found" (.pyint 404))

/-- `getattr(obj, f)`: the current value of field `f` of an instance. -/
def attrValue (obj : Instance) (f : String) : Option PyVal :=
  (obj.find? (fun kv => kv.1 == f)).map Prod.snd

/-- The slugs assigned by an image upload, in upload order (`none` when
the upload raised). -/
def uploadedSlugs (r : Except PyError (List ImageRow × GalleryState)) :
    Option (List String) :=
  match r with
  | .ok (rows, _) => some (rows.map (fun row => row.slug))
  | .error _ => none

/-- The `cover_url` column of the album with the given id (outer `none`
when no such album exists). -/
def albumCover (st : GalleryState) (album_id : Nat) : Option (Option String) :=
  (st.albums.find? (fun a => a.id == album_id)).map AlbumRow.cover_url

/-- The first `n` free candidates of the probe sequence `base`, `base-1`,
`base-2`, … with respect to the given slug records, probed unscoped (the
image repository probes without a user filter). The search bound
`records.length + n + 1` is large enough to contain `n` free candidates,
since the candidates are pairwise distinct. -/
def firstFreeSlugs (records : List SlugRecord) (base : String) (n : Nat) : List String :=
  (((List.range (records.length + n + 1)).filter
    (fun k => slugFree records none base k)).take n).map (slugCandidate base)

/-- Value of a decimal digit character (`'0'` has code point 48). -/
def digitCharVal (c : Char) : Nat := c.toNat - 48

/-- Decode a most-significant-first decimal digit string, folding onto an
accumulator; used to show `Nat.repr` is injective, which makes the slug
candidates pairwise distinct. -/
def decFoldVal (a : Nat) (ds : List Char) : Nat :=
  ds.foldl (fun x c => 10 * x + digitCharVal c) a

/- ============================================================
   Theorems
   ============================================================ -/

/-- C8: when `validate_image_file` rejects a file for an unsupported
content type, the raised `BadRequestError` binds the second positional
argument (the "Allowed types: …" text) to the `status_code` parameter,
so that error's `status_code` is that string rather than the integer
400; only the oversize rejection carries `status_code` 400. -/
theorem validate_image_file_status_code_binding :
    (∀ f : UploadFile, ALLOWED_IMAGE_TYPES.contains f.content_type = false →
      validate_image_file f =
        .error (.appExc "BadRequestError" ("Invalid content type: " ++ f.content_type)
          (.pystr allowedTypesText))) ∧
    (∀ f : UploadFile, ALLOWED_IMAGE_TYPES.contains f.content_type = true →
      MAX_IMAGE_SIZE_BYTES < f.contents.length →
      validate_image_file f =
        .error (.appExc "BadRequestError"
          ("File '" ++ f.filename ++ "' exceeds maximum size of 5MB") (.pyint 400))) := by
  constructor
  · intro f h
    unfold validate_image_file
    rw [h]
    simp [BadRequestError]
  · intro f h hlen
    unfold validate_image_file
    rw [h]
    simp [BadRequestError, hlen]

/-- Witness for C8: a `text/plain` upload is rejected with the string
status, an oversize `image/png` upload with the integer 400. -/
theorem validate_image_file_status_code_binding_witness :
    validate_image_file ⟨"text/plain", "a.txt", []⟩ =
      .error (.appExc "BadRequestError" ("Invalid content type: " ++ "text/plain")
        (.pystr allowedTypesText)) ∧
    validate_image_file ⟨"image/png", "big.png", List.replicate (MAX_IMAGE_SIZE_BYTES + 1) 0⟩ =
      .error (.appExc "BadRequestError"
        ("File '" ++ "big.png" ++ "' exceeds maximum size of 5MB") (.pyint 400)) :=
  ⟨validate_image_file_status_code_binding.1 ⟨"text/plain", "a.txt", []⟩ (by decide),
   validate_image_file_status_code_binding.2
     ⟨"image/png", "big.png", List.replicate (MAX_IMAGE_SIZE_BYTES + 1) 0⟩ (by decide)
     (by simp)⟩

/-- C9: the sign-in request schema applies the same password validator as
signup (`ValidatedPassword`, i.e. `validate_password`), so any sign-in
body whose password fails those rules is rejected at the schema boundary
and never reaches the identity-service credential check. -/
theorem signin_password_schema_gate :
    signInPasswordValidator = signUpPasswordValidator ∧
    (∀ email password m, validate_password password = .error m →
      (signInRequestFlow email password).reachesIdentityService = false) := by
  refine ⟨rfl, ?_⟩
  intro email password m h
  unfold signInRequestFlow
  cases hem : emailStrOk email with
  | false => simp [SignInOutcome.reachesIdentityService]
  | true => simp [h, SignInOutcome.reachesIdentityService]

/-- Witness for C9: the all-lowercase password "alllower1" fails the
uppercase rule, and the corresponding sign-in body never reaches the
identity service. -/
theorem signin_password_schema_gate_witness :
    validate_password "alllower1" =
      .error "Password must contain at least one uppercase letter" ∧
    (signInRequestFlow "user@example.com" "alllower1").reachesIdentityService = false :=
  ⟨by decide,
   signin_password_schema_gate.2 "user@example.com" "alllower1"
     "Password must contain at least one uppercase letter" (by decide)⟩

/-- C2 (refuting evaluation): `Settings` declares no `CORS_ORIGINS` and
no cache-store (`REDIS_HOST`/`REDIS_PORT`) fields, so an environment
missing them still passes every declared check; the module binds the
class object itself (`settings = Settings`) instead of constructing an
instance, so the declared checks are not run eagerly at import; and the
unanchored `r"\d+$"` pattern accepts a `DB_PORT` that is not digits
only. -/
theorem settings_missing_validation_accepted :
    settingsValidate envWithoutCors = true ∧
    settingsDeclaredFields.contains "CORS_ORIGINS" = false ∧
    settingsDeclaredFields.contains "REDIS_HOST" = false ∧
    settingsDeclaredFields.contains "REDIS_PORT" = false ∧
    settingsModuleBinding = SettingsBinding.classObject ∧
    settingsValidate envWithBadPort = true := by
  refine ⟨by decide, by decide, by decide, by decide, rfl, by decide⟩

/-- C7 (counterexample): a non-`SQLAlchemyError` failure raised through
the session scope — here the 404 `NotFoundError` a handler raises — is
rolled back but re-raised unchanged, not as a connection error wrapping
the original, refuting the claim's "on any failure … re-raises the
failure as a connection error". -/
theorem get_db_nonsql_error_not_wrapped :
    (get_db notFoundHandlerOutcome).1 = notFoundHandlerOutcome ∧
    errIsConnectionError (get_db notFoundHandlerOutcome).1 = false ∧
    (get_db notFoundHandlerOutcome).2.rolledBack = true ∧
    (get_db notFoundHandlerOutcome).2.closed = true := by
  refine ⟨rfl, rfl, rfl, rfl⟩

/-- C7 (amended): the request-scoped session commits on clean exit; on a
`SQLAlchemyError` it rolls back and re-raises the failure as a
`DatabaseConnectionError` wrapping the original; on any other failure it
rolls back and re-raises the original unchanged; in all cases the
session is closed. -/
theorem get_db_session_lifecycle :
    (∀ v : Nat, get_db (.ok v) = (.ok v, ⟨true, false, true⟩)) ∧
    (∀ m, get_db (.error (.sqlAlchemyError m)) =
      (.error (.dbConnectionError ("Database operation failed: " ++ m) (.sqlAlchemyError m)),
        ⟨false, true, true⟩)) ∧
    (∀ n msg s, get_db (.error (.appExc n msg s)) =
      (.error (.appExc n msg s), ⟨false, true, true⟩)) ∧
    (∀ m, get_db (.error (.pydanticValidationError m)) =
      (.error (.pydanticValidationError m), ⟨false, true, true⟩)) ∧
    (∀ m o, get_db (.error (.dbConnectionError m o)) =
      (.error (.dbConnectionError m o), ⟨false, true, true⟩)) :=
  ⟨fun _ => rfl, fun _ => rfl, fun _ _ _ => rfl, fun _ => rfl, fun _ _ => rfl⟩

/-- C3 (failing evaluation): a creation request whose `start_at` (50)
lies before the clock (100) is rejected by `validate_datetime` as a
pydantic `ValidationError` raised inside the handler; `main.py` handles
only `BaseAppException`, so the response is an unhandled 500 — not the
400 the route documents — and no event row is persisted. -/
theorem create_event_past_start_unhandled_500 :
    create_event_endpoint 100 [] 1 pastEventPayload = (500, []) ∧
    eventCreateValidate 100 pastEventPayload =
      .error (.pydanticValidationError "Date & time cannot be in the past") ∧
    appHandledStatus (.pydanticValidationError "Date & time cannot be in the past") ≠ 400 := by
  refine ⟨by decide, by decide, by decide⟩

/-- C1: `DELETE /image/{image_id}` performs an ownership-checked delete:
404 (`NotFoundError`) when no image with that id owned by the caller
exists, otherwise that image row is removed and the route responds 204.
(`delete_image` is modelled from the spec; see its doc comment.) -/
theorem delete_image_ownership_checked (st : GalleryState) (u i : Nat) :
    ((∀ im ∈ st.images, ¬(im.user_id = u ∧ im.id = i)) →
      delete_image_endpoint st u i = (404, st)) ∧
    (∀ im ∈ st.images, im.user_id = u → im.id = i →
      delete_image_endpoint st u i =
        (204, { st with
          images := st.images.eraseP (fun x => x.user_id == u && x.id == i) })) := by
  constructor
  · intro h
    have hnone : st.images.find? (fun im => im.user_id == u && im.id == i) = none := by
      rw [List.find?_eq_none]
      intro x hx
      have hx' := h x hx
      simp only [Bool.and_eq_true, beq_iff_eq]
      tauto
    unfold delete_image_endpoint delete_image
    rw [hnone]
    rfl
  · intro im hmem hu hi
    have hsome : (st.images.find? (fun x => x.user_id == u && x.id == i)).isSome := by
      rw [List.find?_isSome]
      refine ⟨im, hmem, ?_⟩
      simp [hu, hi]
    unfold delete_image_endpoint delete_image
    rcases hfind : st.images.find? (fun x => x.user_id == u && x.id == i) with _ | r
    · rw [hfind] at hsome
      simp at hsome
    · rw [hfind]

/-- Witness for C1: deleting the one image owned by user 7 responds 204
and removes the row; deleting a nonexistent id responds 404 and leaves
the table unchanged. -/
theorem delete_image_ownership_checked_witness :
    delete_image_endpoint ⟨[], [⟨5, 7, 3, "https://cdn/x.png", "s", 1, 1⟩]⟩ 7 5 =
      (204, ⟨[], []⟩) ∧
    delete_image_endpoint ⟨[], [⟨5, 7, 3, "https://cdn/x.png", "s", 1, 1⟩]⟩ 7 99 =
      (404, ⟨[], [⟨5, 7, 3, "https://cdn/x.png", "s", 1, 1⟩]⟩) :=
  ⟨((delete_image_ownership_checked ⟨[], [⟨5, 7, 3, "https://cdn/x.png", "s", 1, 1⟩]⟩ 7 5).2
      ⟨5, 7, 3, "https://cdn/x.png", "s", 1, 1⟩ (by decide) rfl rfl).trans (by decide),
   (delete_image_ownership_checked ⟨[], [⟨5, 7, 3, "https://cdn/x.png", "s", 1, 1⟩]⟩ 7 99).1
     (by decide)⟩

/- ============================================================
   Helper lemmas: decimal rendering is injective, so the slug
   candidates are pairwise distinct
   ============================================================ -/

/-- `Nat.digitChar` is decoded correctly by `digitCharVal` on 0–9. -/
theorem digitCharVal_digitChar : ∀ r, r < 10 → digitCharVal (Nat.digitChar r) = r := by
  decide

/-- One decoding step. -/
theorem decFoldVal_cons (a : Nat) (c : Char) (ds : List Char) :
    decFoldVal a (c :: ds) = decFoldVal (10 * a + digitCharVal c) ds := rfl

/-- Decoding the output of `Nat.toDigitsCore` recovers the rendered
number and continues into the accumulator list. -/
theorem toDigitsCore_decode :
    ∀ (fuel n : Nat) (ds : List Char), n < fuel →
      decFoldVal 0 (Nat.toDigitsCore 10 fuel n ds) = decFoldVal n ds := by
  intro fuel
  induction fuel with
  | zero =>
    intro n ds h
    exact absurd h (Nat.not_lt_zero n)
  | succ f ih =>
    intro n ds h
    rw [Nat.toDigitsCore]
    split
    · next h0 =>
      rw [decFoldVal_cons, digitCharVal_digitChar (n % 10) (by omega)]
      have he : 10 * 0 + n % 10 = n := by omega
      rw [he]
    · next h0 =>
      rw [ih (n / 10) _ (by omega)]
      rw [decFoldVal_cons, digitCharVal_digitChar (n % 10) (by omega)]
      have he : 10 * (n / 10) + n % 10 = n := by omega
      rw [he]

/-- Round trip: decoding the decimal rendering of `n` gives back `n`. -/
theorem repr_data_decode (n : Nat) : decFoldVal 0 (Nat.repr n).data = n :=
  toDigitsCore_decode (n + 1) n [] (Nat.lt_succ_self n)

/-- The probe candidates of one base are pairwise distinct. -/
theorem slugCandidate_injective (base : String) :
    Function.Injective (slugCandidate base) := by
  have hlen : ∀ k : Nat, slugCandidate base 0 ≠ slugCandidate base (k + 1) := by
    intro k h
    have := congrArg String.length h
    simp only [slugCandidate, String.length_append] at this
    have h1 : (1 : Nat) ≤ ("-" : String).length := by decide
    omega
  have hdec : ∀ j k : Nat,
      slugCandidate base (j + 1) = slugCandidate base (k + 1) → j + 1 = k + 1 := by
    intro j k h
    have hdata := congrArg String.data h
    simp only [slugCandidate, String.data_append] at hdata
    have hdata2 : (Nat.repr (j + 1)).data = (Nat.repr (k + 1)).data := by
      simpa [List.append_assoc] using hdata
    have := congrArg (decFoldVal 0) hdata2
    rwa [repr_data_decode, repr_data_decode] at this
  intro a b h
  match a, b with
  | 0, 0 => rfl
  | 0, k + 1 => exact absurd h (hlen k)
  | j + 1, 0 => exact absurd h.symm (hlen j)
  | j + 1, k + 1 => exact hdec j k h

/-- A successful slug probe returns a record from the table carrying
exactly the probed slug. -/
theorem get_by_slug_mem (records : List SlugRecord) (s : String) (user_id : Option Nat)
    (r : SlugRecord) (h : get_by_slug records s user_id = some r) :
    r ∈ records ∧ r.slug = s := by
  refine ⟨List.mem_of_find?_eq_some h, ?_⟩
  have hp := List.find?_some h
  simp only [Bool.and_eq_true, beq_iff_eq] at hp
  exact hp.1

/-- A busy candidate's slug occurs in the table's slug column. -/
theorem busy_candidate_mem (records : List SlugRecord) (user_id : Option Nat)
    (base : String) (k : Nat) (h : slugFree records user_id base k = false) :
    slugCandidate base k ∈ records.map SlugRecord.slug := by
  unfold slugFree at h
  rcases hg : get_by_slug records (slugCandidate base k) user_id with _ | r
  · rw [hg] at h
    simp at h
  · obtain ⟨hmem, hslug⟩ := get_by_slug_mem records _ user_id r hg
    exact hslug ▸ List.mem_map_of_mem SlugRecord.slug hmem

/-- If every candidate below `k` is busy, then `k` distinct candidate
slugs occur among the table's slugs, so `k` is at most the table size. -/
theorem firstFree_le_length (records : List SlugRecord) (user_id : Option Nat)
    (base : String) (k : Nat)
    (hbusy : ∀ j < k, slugFree records user_id base j = false) :
    k ≤ records.length := by
  have hnd : ((List.range k).map (slugCandidate base)).Nodup :=
    (List.nodup_range k).map (slugCandidate_injective base)
  have hsub : ((List.range k).map (slugCandidate base)).toFinset ⊆
      (records.map SlugRecord.slug).toFinset := by
    intro x hx
    rw [List.mem_toFinset] at hx ⊢
    obtain ⟨j, hj, rfl⟩ := List.mem_map.mp hx
    exact busy_candidate_mem records user_id base j (hbusy j (List.mem_range.mp hj))
  have h1 := List.toFinset_card_of_nodup hnd
  have h2 := Finset.card_le_card hsub
  have h3 := List.toFinset_card_le (l := records.map SlugRecord.slug)
  simp only [List.length_map, List.length_range] at h1 h3 ⊢
  omega

/-- The probe loop, started at candidate `c` with counter `c + 1`,
returns the first free candidate at or after `c` together with the
final counter, provided the fuel exceeds the distance to it. -/
theorem slugLoop_finds_first_free (records : List SlugRecord) (user_id : Option Nat)
    (base : String) :
    ∀ (k c fuel : Nat), k < fuel →
      slugFree records user_id base (c + k) = true →
      (∀ j, c ≤ j → j < c + k → slugFree records user_id base j = false) →
      slugLoop records user_id base fuel (slugCandidate base c) (c + 1) =
        some (slugCandidate base (c + k), c + k + 1) := by
  intro k
  induction k with
  | zero =>
    intro c fuel hfuel hfree _
    cases fuel with
    | zero => omega
    | succ f =>
      rw [slugLoop]
      have hnone : get_by_slug records (slugCandidate base c) user_id = none := by
        have h0 : slugFree records user_id base c = true := hfree
        unfold slugFree at h0
        exact Option.isNone_iff_eq_none.mp h0
      rw [hnone]
      simp
  | succ k ih =>
    intro c fuel hfuel hfree hbusy
    cases fuel with
    | zero => omega
    | succ f =>
      rw [slugLoop]
      have hb : slugFree records user_id base c = false :=
        hbusy c (Nat.le_refl c) (by omega)
      obtain ⟨r, hr⟩ : ∃ r, get_by_slug records (slugCandidate base c) user_id = some r := by
        unfold slugFree at hb
        rcases hg : get_by_slug records (slugCandidate base c) user_id with _ | r
        · rw [hg] at hb
          simp at hb
        · exact ⟨r, rfl⟩
      rw [hr]
      have hfree' : slugFree records user_id base (c + 1 + k) = true := by
        have he : c + 1 + k = c + (k + 1) := by omega
        rw [he]
        exact hfree
      have hbusy' : ∀ j, c + 1 ≤ j → j < c + 1 + k → slugFree records user_id base j = false := by
        intro j h1 h2
        exact hbusy j (by omega) (by omega)
      have := ih (c + 1) f (by omega) hfree' hbusy'
      have hcand : base ++ "-" ++ Nat.repr (c + 1) = slugCandidate base (c + 1) := rfl
      rw [hcand]
      rw [this]
      have he1 : c + 1 + k = c + (k + 1) := by omega
      rw [he1]

/-- `generate_unique_slug` returns the first free candidate, after one
probe per colliding candidate plus the final successful probe. -/
theorem generate_unique_slug_spec (records : List SlugRecord) (base_text : String)
    (user_id : Option Nat) (k : Nat)
    (hfree : slugFree records user_id (slugify base_text) k = true)
    (hbusy : ∀ j < k, slugFree records user_id (slugify base_text) j = false) :
    generate_unique_slug records base_text user_id =
      some (slugCandidate (slugify base_text) k, k + 1) := by
  have hk : k ≤ records.length := firstFree_le_length records user_id (slugify base_text) k hbusy
  have hmain := slugLoop_finds_first_free records user_id (slugify base_text) k 0
    (records.length + 1) (by omega) (by simpa using hfree)
    (fun j _ hj => hbusy j (by omega))
  unfold generate_unique_slug
  have hc0 : slugCandidate (slugify base_text) 0 = slugify base_text := rfl
  rw [hc0] at hmain
  simpa using hmain

/-- C4: `generate_unique_slug(base_text, user_id)` returns the first
candidate in the probe sequence `s`, `s-1`, `s-2`, … (with `s` the slug
of `base_text`) that `get_by_slug` — scoped to `user_id` when one is
given, unscoped otherwise — finds free; the loop performs one probe per
existing collision plus the final successful probe (`k + 1` probes when
the first `k` candidates collide), so it terminates after the existing
collisions are exhausted. -/
theorem generate_unique_slug_first_free (records : List SlugRecord) (base_text : String)
    (user_id : Option Nat) (k : Nat)
    (hfree : slugFree records user_id (slugify base_text) k = true)
    (hbusy : ∀ j < k, slugFree records user_id (slugify base_text) j = false) :
    generate_unique_slug records base_text user_id =
      some (slugCandidate (slugify base_text) k, k + 1) :=
  generate_unique_slug_spec records base_text user_id k hfree hbusy

/-- Witness for C4: with one existing event slugged `x` for user 7, a
second same-titled event for user 7 receives slug `x-1` after 2 probes
(one collision plus the final free probe). -/
theorem generate_unique_slug_first_free_witness :
    slugFree [⟨"x", 7⟩] (some 7) (slugify "x") 1 = true ∧
    slugFree [⟨"x", 7⟩] (some 7) (slugify "x") 0 = false ∧
    generate_unique_slug [⟨"x", 7⟩] "x" (some 7) = some ("x-1", 2) :=
  ⟨by decide, by decide,
   (generate_unique_slug_first_free [⟨"x", 7⟩] "x" (some 7) 1 (by decide)
     (by decide)).trans (by decide)⟩

/-- Unfolding `setattr` over the head attribute. -/
theorem setattrOn_cons (p : String × PyVal) (rest : Instance) (k : String) (v : PyVal) :
    setattrOn (p :: rest) k v =
      (if p.1 = k then (p.1, v) else p) :: setattrOn rest k v := rfl

/-- Unfolding attribute lookup over the head attribute. -/
theorem attrValue_cons (p : String × PyVal) (rest : Instance) (f : String) :
    attrValue (p :: rest) f = if p.1 == f then some p.2 else attrValue rest f := by
  unfold attrValue
  rw [List.find?_cons]
  cases h : (p.1 == f) <;> simp

/-- Unfolding `hasattr` over the head attribute. -/
theorem hasattrOn_cons (p : String × PyVal) (rest : Instance) (f : String) :
    hasattrOn (p :: rest) f = (decide (p.1 = f) || hasattrOn rest f) := rfl

/-- `setattr` does not change which attributes an instance has. -/
theorem hasattrOn_setattrOn (obj : Instance) (k : String) (v : PyVal) (f : String) :
    hasattrOn (setattrOn obj k v) f = hasattrOn obj f := by
  induction obj with
  | nil => rfl
  | cons p rest ih =>
    rw [setattrOn_cons]
    by_cases hpk : p.1 = k
    · rw [if_pos hpk, hasattrOn_cons, hasattrOn_cons, ih]
    · rw [if_neg hpk, hasattrOn_cons, hasattrOn_cons, ih]

/-- Reading an attribute after `setattr`: the set key reads back the new
value when the instance has it; every other attribute is unchanged. -/
theorem attrValue_setattrOn (obj : Instance) (k : String) (v : PyVal) (f : String) :
    attrValue (setattrOn obj k v) f =
      if hasattrOn obj k = true ∧ k = f then some v else attrValue obj f := by
  induction obj with
  | nil => simp [setattrOn, hasattrOn, attrValue]
  | cons p rest ih =>
    rw [setattrOn_cons]
    by_cases hpk : p.1 = k
    · rw [if_pos hpk]
      by_cases hkf : k = f
      · subst hkf
        have h1 : (p.1 == k) = true := by simp [hpk]
        have hh : hasattrOn (p :: rest) k = true := by
          rw [hasattrOn_cons]
          simp [hpk]
        rw [attrValue_cons, hh]
        simp [h1]
      · have h1 : (p.1 == f) = false := by
          rw [hpk]
          simpa using hkf
        rw [attrValue_cons, attrValue_cons, ih]
        simp [h1, hkf]
    · rw [if_neg hpk]
      by_cases hpf : p.1 = f
      · have hkf : ¬(k = f) := fun h => hpk (by rw [h, hpf])
        have h1 : (p.1 == f) = true := by simp [hpf]
        rw [attrValue_cons, attrValue_cons]
        simp [h1, hkf]
      · have h1 : (p.1 == f) = false := by simp [hpf]
        rw [attrValue_cons, attrValue_cons, ih, hasattrOn_cons]
        simp [h1, hpk]

/-- When a key does not occur in an association list, `find?` by that
key returns nothing. -/
theorem find?_key_eq_none (data : List (String × PyVal)) (f : String)
    (h : f ∉ data.map Prod.fst) :
    data.find? (fun kv => kv.1 == f) = none := by
  rw [List.find?_eq_none]
  intro kv hkv
  simp only [beq_iff_eq]
  intro he
  exact h (he ▸ List.mem_map_of_mem Prod.fst hkv)

/-- With no duplicate keys, `find?` by the key of a member returns that
member. -/
theorem find?_key_of_mem (data : List (String × PyVal)) (f : String) (v : PyVal)
    (hnd : (data.map Prod.fst).Nodup) (hmem : (f, v) ∈ data) :
    data.find? (fun kv => kv.1 == f) = some (f, v) := by
  induction data with
  | nil => cases hmem
  | cons p rest ih =>
    rw [List.map_cons, List.nodup_cons] at hnd
    rw [List.mem_cons] at hmem
    rcases hmem with heq | hmem'
    · rw [← heq]
      simp [List.find?_cons]
    · have hpf : (p.1 == f) = false := by
        simp only [beq_eq_false_iff_ne, ne_eq]
        intro he
        exact hnd.1 (he ▸ List.mem_map_of_mem Prod.fst hmem')
      rw [List.find?_cons, hpf]
      exact ih hnd.2 hmem'

/-- Reading any attribute after `BaseRepository.update`: a supplied
non-`None` value for an existing attribute reads back; everything else
reads as before. -/
theorem repository_update_lookup (data : List (String × PyVal)) :
    ∀ (obj : Instance), (data.map Prod.fst).Nodup →
      ∀ f, attrValue (repository_update obj data) f =
        match data.find? (fun kv => kv.1 == f) with
        | some kv =>
          if kv.2 ≠ .pynone ∧ hasattrOn obj f = true then some kv.2 else attrValue obj f
        | none => attrValue obj f := by
  induction data with
  | nil =>
    intro obj _ f
    rfl
  | cons kv rest ih =>
    intro obj hnd f
    rw [List.map_cons, List.nodup_cons] at hnd
    have hstep : repository_update obj (kv :: rest) =
        repository_update
          (if hasattrOn obj kv.1 = true ∧ kv.2 ≠ .pynone then setattrOn obj kv.1 kv.2 else obj)
          rest := rfl
    rw [hstep]
    by_cases hf : kv.1 = f
    · have hb : (kv.1 == f) = true := by simp [hf]
      have hrest : rest.find? (fun kv' => kv'.1 == f) = none :=
        find?_key_eq_none rest f (by rw [← hf]; exact hnd.1)
      rw [ih _ hnd.2 f, hrest]
      simp only [List.find?_cons, hb]
      by_cases hcond : hasattrOn obj kv.1 = true ∧ kv.2 ≠ .pynone
      · rw [if_pos hcond, attrValue_setattrOn]
        rw [if_pos ⟨hcond.1, hf⟩]
        rw [if_pos ⟨hcond.2, hf ▸ hcond.1⟩]
      · rw [if_neg hcond]
        have h2 : ¬(kv.2 ≠ .pynone ∧ hasattrOn obj f = true) := by
          intro h
          exact hcond ⟨hf ▸ h.2, h.1⟩
        rw [if_neg h2]
    · have hb : (kv.1 == f) = false := by simp [hf]
      rw [ih _ hnd.2 f]
      simp only [List.find?_cons, hb]
      have hav : attrValue
          (if hasattrOn obj kv.1 = true ∧ kv.2 ≠ .pynone then setattrOn obj kv.1 kv.2 else obj) f =
          attrValue obj f := by
        split
        · rw [attrValue_setattrOn]
          exact if_neg (fun h => hf h.2)
        · rfl
      have hha : hasattrOn
          (if hasattrOn obj kv.1 = true ∧ kv.2 ≠ .pynone then setattrOn obj kv.1 kv.2 else obj) f =
          hasattrOn obj f := by
        split
        · exact hasattrOn_setattrOn obj kv.1 kv.2 f
        · rfl
      simp only [hav, hha]

/-- C6: `BaseRepository.update(instance, fields)` — and the `PATCH`
flows built on it, which pass `model_dump(exclude_unset=True)`, i.e.
the explicitly supplied fields — applies exactly the supplied,
non-`None` values to existing attributes: a supplied non-`None` value
reads back afterwards; a field not supplied at all, and a field
supplied as `None`, retain their prior values. -/
theorem repository_update_partial_fields (obj : Instance) (data : List (String × PyVal))
    (hnd : (data.map Prod.fst).Nodup) :
    (∀ f v, (f, v) ∈ data → v ≠ .pynone → hasattrOn obj f = true →
      attrValue (repository_update obj data) f = some v) ∧
    (∀ f, f ∉ data.map Prod.fst →
      attrValue (repository_update obj data) f = attrValue obj f) ∧
    (∀ f, (f, PyVal.pynone) ∈ data →
      attrValue (repository_update obj data) f = attrValue obj f) := by
  refine ⟨?_, ?_, ?_⟩
  · intro f v hmem hv hattr
    rw [repository_update_lookup data obj hnd f, find?_key_of_mem data f v hnd hmem]
    exact if_pos ⟨hv, hattr⟩
  · intro f hnot
    rw [repository_update_lookup data obj hnd f, find?_key_eq_none data f hnot]
  · intro f hmem
    rw [repository_update_lookup data obj hnd f, find?_key_of_mem data f _ hnd hmem]
    have : ¬((PyVal.pynone : PyVal) ≠ .pynone ∧ hasattrOn obj f = true) := by
      intro h
      exact h.1 rfl
    exact if_neg this

/-- Witness for C6: updating `{title: "old", summary: "s", content: "c"}`
with `{title: "new", summary: None}` changes only `title`; `summary`
(supplied as `None`) and `content` (not supplied) keep their values. -/
theorem repository_update_partial_fields_witness :
    attrValue (repository_update
      [("title", .pystr "old"), ("summary", .pystr "s"), ("content", .pystr "c")]
      [("title", .pystr "new"), ("summary", .pynone)]) "title" = some (.pystr "new") ∧
    attrValue (repository_update
      [("title", .pystr "old"), ("summary", .pystr "s"), ("content", .pystr "c")]
      [("title", .pystr "new"), ("summary", .pynone)]) "content" =
      attrValue [("title", .pystr "old"), ("summary", .pystr "s"), ("content", .pystr "c")]
        "content" ∧
    attrValue (repository_update
      [("title", .pystr "old"), ("summary", .pystr "s"), ("content", .pystr "c")]
      [("title", .pystr "new"), ("summary", .pynone)]) "summary" =
      attrValue [("title", .pystr "old"), ("summary", .pystr "s"), ("content", .pystr "c")]
        "summary" :=
  ⟨(repository_update_partial_fields
      [("title", .pystr "old"), ("summary", .pystr "s"), ("content", .pystr "c")]
      [("title", .pystr "new"), ("summary", .pynone)] (by decide)).1
      "title" (.pystr "new") (by decide) (by decide) (by decide),
   (repository_update_partial_fields
      [("title", .pystr "old"), ("summary", .pystr "s"), ("content", .pystr "c")]
      [("title", .pystr "new"), ("summary", .pynone)] (by decide)).2.1
      "content" (by decide),
   (repository_update_partial_fields
      [("title", .pystr "old"), ("summary", .pystr "s"), ("content", .pystr "c")]
      [("title", .pystr "new"), ("summary", .pynone)] (by decide)).2.2
      "summary" (by decide)⟩

/-- Processing one file never touches the album table and appends
exactly one row to the image table. -/
theorem process_single_image_effect (storageUrl : String → String)
    (decode : List UInt8 → Option (Nat × Nat)) (st : GalleryState)
    (u aid : Nat) (title : String) (f : UploadFile) (row : ImageRow) (st' : GalleryState)
    (h : process_single_image storageUrl decode st u aid title f = .ok (row, st')) :
    st'.albums = st.albums ∧ st'.images = st.images ++ [row] := by
  unfold process_single_image at h
  cases hv : validate_image_file f with
  | error e =>
    rw [hv] at h
    simp only [] at h
    exact Except.noConfusion h
  | ok contents =>
    rw [hv] at h
    simp only [] at h
    cases hd : decode contents with
    | none =>
      rw [hd] at h
      simp only [] at h
      exact Except.noConfusion h
    | some wh =>
      rw [hd] at h
      simp only [] at h
      cases hs : generate_unique_slug (imageSlugRecords st.images) title none with
      | none =>
        rw [hs] at h
        simp only [] at h
        exact Except.noConfusion h
      | some sp =>
        obtain ⟨slug, probes⟩ := sp
        rw [hs] at h
        simp only [Except.ok.injEq, Prod.mk.injEq] at h
        obtain ⟨hrow, hst⟩ := h
        rw [← hst]
        exact ⟨rfl, by rw [hrow]⟩

/-- While the cover rule cannot fire (no first file with a missing
cover), the upload loop leaves the album table unchanged. -/
theorem uploadFilesGo_albums (storageUrl : String → String)
    (decode : List UInt8 → Option (Nat × Nat)) (u aid : Nat) (title : String)
    (coverFalsy : Bool) :
    ∀ (fs : List UploadFile) (i : Nat) (st : GalleryState) (rows : List ImageRow)
      (stF : GalleryState),
      (coverFalsy = false ∨ i ≠ 0) →
      uploadFilesGo storageUrl decode u aid title coverFalsy fs i st = .ok (rows, stF) →
      stF.albums = st.albums := by
  intro fs
  induction fs with
  | nil =>
    intro i st rows stF _ h
    simp only [uploadFilesGo, Except.ok.injEq, Prod.mk.injEq] at h
    rw [← h.2]
  | cons f fs ih =>
    intro i st rows stF hcase h
    rw [uploadFilesGo] at h
    cases hp : process_single_image storageUrl decode st u aid title f with
    | error e =>
      rw [hp] at h
      cases h
    | ok pair =>
      obtain ⟨row, st1⟩ := pair
      rw [hp] at h
      simp only [] at h
      have hcond : ¬(i = 0 ∧ coverFalsy = true) := by
        rcases hcase with hc | hi
        · intro hx
          rw [hc] at hx
          cases hx.2
        · intro hx
          exact hi hx.1
      rw [if_neg hcond] at h
      cases hrec : uploadFilesGo storageUrl decode u aid title coverFalsy fs (i + 1) st1 with
      | error e =>
        rw [hrec] at h
        simp only [] at h
        exact Except.noConfusion h
      | ok pr =>
        obtain ⟨rows1, stF1⟩ := pr
        rw [hrec] at h
        simp only [Except.ok.injEq, Prod.mk.injEq] at h
        have h1 := ih (i + 1) st1 rows1 stF1 (Or.inr (Nat.succ_ne_zero i)) hrec
        have h2 := (process_single_image_effect storageUrl decode st u aid title f
          row st1 hp).1
        rw [← h.2, h1, h2]

/-- Setting an album's cover changes exactly that album's `cover_url`
as read back through `albumCover`. -/
theorem albumCover_setAlbumCover (st : GalleryState) (aid : Nat) (url : String) :
    albumCover (setAlbumCover st aid url) aid =
      (albumCover st aid).map (fun _ => some url) := by
  unfold albumCover setAlbumCover
  simp only []
  induction st.albums with
  | nil => rfl
  | cons a rest ih =>
    by_cases h : a.id = aid
    · simp [List.find?_cons, h]
    · simp only [List.map_cons, if_neg h, List.find?_cons]
      have hb : (a.id == aid) = false := by simp [h]
      rw [hb]
      simpa using ih

/-- `albumCover` only reads the album table. -/
theorem albumCover_congr (s1 s2 : GalleryState) (aid : Nat) (h : s1.albums = s2.albums) :
    albumCover s1 aid = albumCover s2 aid := by
  unfold albumCover
  rw [h]

/-- C5: for a bulk upload into an owned album: when the album's
`cover_url` is falsy (unset), the cover afterwards is the stored URL of
the file at index 0 — and of no other file; when the album already has a
(nonempty) `cover_url`, the upload leaves the cover unchanged. -/
theorem upload_images_cover_rule (storageUrl : String → String)
    (decode : List UInt8 → Option (Nat × Nat)) (st : GalleryState) (u aid : Nat)
    (files : List UploadFile) (album : AlbumRow) (rows : List ImageRow) (st' : GalleryState)
    (halbum : get_album_by_user_and_id st u aid = some album)
    (hrun : upload_images storageUrl decode st u aid files = .ok (rows, st')) :
    (pyStrOptFalsy album.cover_url = false → albumCover st' aid = albumCover st aid) ∧
    (pyStrOptFalsy album.cover_url = true → ∀ r0 rrest, rows = r0 :: rrest →
      albumCover st' aid = (albumCover st aid).map (fun _ => some r0.image_url)) := by
  unfold upload_images at hrun
  rw [halbum] at hrun
  simp only [] at hrun
  constructor
  · intro hfalse
    rw [hfalse] at hrun
    exact albumCover_congr st' st aid
      (uploadFilesGo_albums storageUrl decode u aid album.title false files 0 st rows st'
        (Or.inl rfl) hrun)
  · intro htrue r0 rrest hrows
    rw [htrue] at hrun
    cases files with
    | nil =>
      simp only [uploadFilesGo, Except.ok.injEq, Prod.mk.injEq] at hrun
      exact List.noConfusion (hrun.1.trans hrows)
    | cons f fs =>
      rw [uploadFilesGo] at hrun
      cases hp : process_single_image storageUrl decode st u aid album.title f with
      | error e =>
        rw [hp] at hrun
        simp only [] at hrun
        exact Except.noConfusion hrun
      | ok pair =>
        obtain ⟨row, st1⟩ := pair
        rw [hp] at hrun
        simp only [] at hrun
        rw [if_pos (And.intro trivial trivial)] at hrun
        cases hrec : uploadFilesGo storageUrl decode u aid album.title true fs 1
            (setAlbumCover st1 aid row.image_url) with
        | error e =>
          rw [hrec] at hrun
          simp only [] at hrun
          exact Except.noConfusion hrun
        | ok pr =>
          obtain ⟨rows1, stF1⟩ := pr
          rw [hrec] at hrun
          simp only [Except.ok.injEq, Prod.mk.injEq] at hrun
          obtain ⟨hrows1, hstF⟩ := hrun
          have hr0 : r0 = row := by
            have h1 : row :: rows1 = r0 :: rrest := hrows1.trans hrows
            exact (List.cons.injEq _ _ _ _ ▸ h1).1.symm
          have halb1 : stF1.albums = (setAlbumCover st1 aid row.image_url).albums :=
            uploadFilesGo_albums storageUrl decode u aid album.title true fs 1 _ rows1 stF1
              (Or.inr (Nat.succ_ne_zero 0)) hrec
          have halb0 : st1.albums = st.albums :=
            (process_single_image_effect storageUrl decode st u aid album.title f row st1 hp).1
          calc albumCover st' aid
              = albumCover stF1 aid := by rw [hstF]
            _ = albumCover (setAlbumCover st1 aid row.image_url) aid :=
                albumCover_congr _ _ aid halb1
            _ = (albumCover st1 aid).map (fun _ => some row.image_url) :=
                albumCover_setAlbumCover st1 aid row.image_url
            _ = (albumCover st aid).map (fun _ => some row.image_url) := by
                rw [albumCover_congr st1 st aid halb0]
            _ = (albumCover st aid).map (fun _ => some r0.image_url) := by rw [hr0]

/-- Witness for C5: uploading one file into an album with no cover sets
the cover to that file's stored URL; uploading into an album whose cover
is already set leaves the cover unchanged. -/
theorem upload_images_cover_rule_witness :
    albumCover ⟨[⟨3, 7, "t", "t", some "7/Gallery/t.png", false⟩],
        [⟨0, 7, 3, "7/Gallery/t.png", "t", 1, 1⟩]⟩ 3 =
      (albumCover ⟨[⟨3, 7, "t", "t", none, false⟩], []⟩ 3).map
        (fun _ => some "7/Gallery/t.png") ∧
    albumCover ⟨[⟨3, 7, "t", "t", some "existing", false⟩],
        [⟨0, 7, 3, "7/Gallery/t.png", "t", 1, 1⟩]⟩ 3 =
      albumCover ⟨[⟨3, 7, "t", "t", some "existing", false⟩], []⟩ 3 :=
  ⟨(upload_images_cover_rule (fun k => k) (fun _ => some (1, 1))
      ⟨[⟨3, 7, "t", "t", none, false⟩], []⟩ 7 3 [⟨"image/png", "p.png", []⟩]
      ⟨3, 7, "t", "t", none, false⟩ [⟨0, 7, 3, "7/Gallery/t.png", "t", 1, 1⟩]
      ⟨[⟨3, 7, "t", "t", some "7/Gallery/t.png", false⟩],
        [⟨0, 7, 3, "7/Gallery/t.png", "t", 1, 1⟩]⟩
      (by decide) (by decide)).2 (by decide) ⟨0, 7, 3, "7/Gallery/t.png", "t", 1, 1⟩ [] rfl,
   (upload_images_cover_rule (fun k => k) (fun _ => some (1, 1))
      ⟨[⟨3, 7, "t", "t", some "existing", false⟩], []⟩ 7 3 [⟨"image/png", "p.png", []⟩]
      ⟨3, 7, "t", "t", some "existing", false⟩ [⟨0, 7, 3, "7/Gallery/t.png", "t", 1, 1⟩]
      ⟨[⟨3, 7, "t", "t", some "existing", false⟩],
        [⟨0, 7, 3, "7/Gallery/t.png", "t", 1, 1⟩]⟩
      (by decide) (by decide)).1 (by decide)⟩

/-- Unscoped freeness over a table extended by one record: the candidate
stays free exactly when it was free before and differs from the new
record's slug. -/
theorem slugFree_append (records : List SlugRecord) (r : SlugRecord) (base : String)
    (k : Nat) :
    slugFree (records ++ [r]) none base k =
      (slugFree records none base k && !(r.slug == slugCandidate base k)) := by
  unfold slugFree get_by_slug
  rw [List.find?_append]
  cases hf : records.find? (fun x =>
      x.slug == slugCandidate base k &&
        (match (none : Option Nat) with
         | none => true
         | some u => x.user_id == u)) with
  | some x => simp
  | none =>
    simp only [Option.or]
    cases hr : (r.slug == slugCandidate base k) with
    | true => simp [List.find?_cons, hr]
    | false => simp [List.find?_cons, hr]

/-- Specialised to a new record whose slug is itself a candidate: the
indices other than the inserted one keep their freeness. -/
theorem slugFree_append_cand (records : List SlugRecord) (base : String)
    (k0 u k : Nat) :
    slugFree (records ++ [⟨slugCandidate base k0, u⟩]) none base k =
      (slugFree records none base k && !(k == k0)) := by
  rw [slugFree_append]
  by_cases h : k = k0
  · subst h
    simp
  · have h2 : slugCandidate base k0 ≠ slugCandidate base k := by
      intro he
      exact h (slugCandidate_injective base he).symm
    have hb1 : (slugCandidate base k0 == slugCandidate base k) = false := by
      simp [h2]
    have hb2 : (k == k0) = false := by simp [h]
    rw [hb1, hb2]

/-- Some candidate within the table size is free, and there is a least
free candidate. -/
theorem exists_least_free (records : List SlugRecord) (user_id : Option Nat)
    (base : String) :
    ∃ k, k ≤ records.length ∧ slugFree records user_id base k = true ∧
      ∀ j < k, slugFree records user_id base j = false := by
  have hex : ∃ k, k ≤ records.length ∧ slugFree records user_id base k = true := by
    by_contra hno
    push_neg at hno
    have hbusy : ∀ j < records.length + 1, slugFree records user_id base j = false := by
      intro j hj
      have hj' := hno j (by omega)
      cases hcase : slugFree records user_id base j with
      | false => rfl
      | true => exact absurd hcase hj'
    have := firstFree_le_length records user_id base (records.length + 1) hbusy
    omega
  obtain ⟨k0, hk0le, hk0free⟩ := hex
  have hex' : ∃ k, slugFree records user_id base k = true := ⟨k0, hk0free⟩
  refine ⟨Nat.find hex', le_trans (Nat.find_min' hex' hk0free) hk0le,
    Nat.find_spec hex', ?_⟩
  intro j hj
  have hj' := Nat.find_min hex' hj
  cases hcase : slugFree records user_id base j with
  | false => rfl
  | true => exact absurd hcase hj'

/-- Inserting the least free candidate consumes exactly the head of the
free-candidate sequence: the first `n + 1` free candidates of a table
are the least free candidate followed by the first `n` free candidates
of the table extended with it. -/
theorem firstFreeSlugs_step (records : List SlugRecord) (base : String) (n u k0 : Nat)
    (hfree : slugFree records none base k0 = true)
    (hleast : ∀ j < k0, slugFree records none base j = false) :
    firstFreeSlugs records base (n + 1) =
      slugCandidate base k0 ::
        firstFreeSlugs (records ++ [⟨slugCandidate base k0, u⟩]) base n := by
  have hk0le : k0 ≤ records.length := firstFree_le_length records none base k0 hleast
  unfold firstFreeSlugs
  have hlen : (records ++ [(⟨slugCandidate base k0, u⟩ : SlugRecord)]).length + n + 1 =
      records.length + (n + 1) + 1 := by
    rw [List.length_append]
    simp only [List.length_singleton]
    omega
  rw [hlen]
  have hfilter : (List.range (records.length + (n + 1) + 1)).filter
      (fun k => slugFree (records ++ [⟨slugCandidate base k0, u⟩]) none base k) =
      ((List.range (records.length + (n + 1) + 1)).filter
        (fun k => slugFree records none base k)).filter (fun k => !(k == k0)) := by
    rw [List.filter_filter]
    apply List.filter_congr
    intro k _
    rw [slugFree_append_cand]
    exact Bool.and_comm _ _
  rw [hfilter]
  obtain ⟨t, hFt, hk0notin⟩ : ∃ t,
      (List.range (records.length + (n + 1) + 1)).filter
        (fun k => slugFree records none base k) = k0 :: t ∧ k0 ∉ t := by
    have hmem : k0 ∈ (List.range (records.length + (n + 1) + 1)).filter
        (fun k => slugFree records none base k) :=
      List.mem_filter.mpr ⟨List.mem_range.mpr (by omega), hfree⟩
    have hpairw := (List.pairwise_lt_range (records.length + (n + 1) + 1)).filter
      (fun k => slugFree records none base k)
    have hmin : ∀ j ∈ (List.range (records.length + (n + 1) + 1)).filter
        (fun k => slugFree records none base k), k0 ≤ j := by
      intro j hj
      rw [List.mem_filter] at hj
      by_contra hlt
      push_neg at hlt
      have h1 := hleast j hlt
      rw [hj.2] at h1
      cases h1
    cases hF : (List.range (records.length + (n + 1) + 1)).filter
        (fun k => slugFree records none base k) with
    | nil =>
      rw [hF] at hmem
      cases hmem
    | cons x t =>
      rw [hF] at hpairw hmem hmin
      have hx : x = k0 := by
        rcases List.mem_cons.mp hmem with he | ht'
        · exact he.symm
        · have h1 := (List.pairwise_cons.mp hpairw).1 k0 ht'
          have h2 := hmin x (List.mem_cons_self x t)
          omega
      subst hx
      refine ⟨t, rfl, ?_⟩
      intro hmem'
      have := (List.pairwise_cons.mp hpairw).1 x hmem'
      omega
  rw [hFt]
  have ht : (k0 :: t).filter (fun k => !(k == k0)) = t := by
    rw [List.filter_cons]
    have hc : (!(k0 == k0)) = false := by simp
    rw [hc]
    simp only [Bool.false_eq_true, if_false]
    rw [List.filter_eq_self]
    intro a ha
    have hne : a ≠ k0 := fun he => hk0notin (he ▸ ha)
    simp [hne]
  rw [ht, List.take_succ_cons, List.map_cons]

/-- The upload loop, on files that all validate and decode, succeeds and
assigns as slugs exactly the first free candidates of the album-title
probe sequence against the image-slug table, in upload order. -/
theorem uploadFilesGo_slugs (storageUrl : String → String)
    (decode : List UInt8 → Option (Nat × Nat)) (u aid : Nat) (title : String)
    (coverFalsy : Bool) :
    ∀ (fs : List UploadFile) (i : Nat) (st : GalleryState),
      (∀ f ∈ fs, ALLOWED_IMAGE_TYPES.contains f.content_type = true) →
      (∀ f ∈ fs, f.contents.length ≤ MAX_IMAGE_SIZE_BYTES) →
      (∀ f ∈ fs, (decode f.contents).isSome = true) →
      ∃ rows stF,
        uploadFilesGo storageUrl decode u aid title coverFalsy fs i st = .ok (rows, stF) ∧
        rows.map (fun r => r.slug) =
          firstFreeSlugs (imageSlugRecords st.images) (slugify title) fs.length := by
  intro fs
  induction fs with
  | nil =>
    intro i st _ _ _
    exact ⟨[], st, rfl, by simp [firstFreeSlugs]⟩
  | cons f fs ih =>
    intro i st hct hsz hdec
    have hv : validate_image_file f = .ok f.contents := by
      unfold validate_image_file
      rw [hct f (List.mem_cons_self f fs)]
      have h2 : ¬(f.contents.length > MAX_IMAGE_SIZE_BYTES) := by
        have := hsz f (List.mem_cons_self f fs)
        omega
      rw [if_neg (by simp), if_neg h2]
    obtain ⟨wh, hwh⟩ : ∃ wh, decode f.contents = some wh :=
      Option.isSome_iff_exists.mp (hdec f (List.mem_cons_self f fs))
    obtain ⟨k0, hk0le, hk0free, hk0least⟩ :=
      exists_least_free (imageSlugRecords st.images) none (slugify title)
    have hgen := generate_unique_slug_spec (imageSlugRecords st.images) title none k0
      hk0free hk0least
    obtain ⟨row, hrslug, hruid, hproc⟩ : ∃ row : ImageRow,
        row.slug = slugCandidate (slugify title) k0 ∧ row.user_id = u ∧
        process_single_image storageUrl decode st u aid title f =
          .ok (row, { st with images := st.images ++ [row] }) := by
      refine ⟨⟨st.images.length, u, aid,
        storageUrl (Nat.repr u ++ "/Gallery/" ++ slugCandidate (slugify title) k0 ++ "." ++
          contentTypeExtension f.content_type),
        slugCandidate (slugify title) k0, wh.1, wh.2⟩, rfl, rfl, ?_⟩
      unfold process_single_image
      rw [hv]
      simp only []
      rw [hwh]
      simp only []
      rw [hgen]
    obtain ⟨rows1, stF, hrun1, hslugs1⟩ := ih (i + 1)
      (if i = 0 ∧ coverFalsy = true
        then setAlbumCover { st with images := st.images ++ [row] } aid row.image_url
        else { st with images := st.images ++ [row] })
      (fun g hg => hct g (List.mem_cons_of_mem f hg))
      (fun g hg => hsz g (List.mem_cons_of_mem f hg))
      (fun g hg => hdec g (List.mem_cons_of_mem f hg))
    have hst2img : (if i = 0 ∧ coverFalsy = true
        then setAlbumCover { st with images := st.images ++ [row] } aid row.image_url
        else { st with images := st.images ++ [row] }).images = st.images ++ [row] := by
      split
      · rfl
      · rfl
    refine ⟨row :: rows1, stF, ?_, ?_⟩
    · rw [uploadFilesGo, hproc]
      simp only []
      rw [hrun1]
    · rw [List.map_cons, hslugs1, hst2img]
      have hrecords : imageSlugRecords (st.images ++ [row]) =
          imageSlugRecords st.images ++ [⟨row.slug, row.user_id⟩] := by
        simp [imageSlugRecords]
      rw [hrecords, hrslug, hruid, List.length_cons]
      exact (firstFreeSlugs_step (imageSlugRecords st.images) (slugify title) fs.length u k0
        hk0free hk0least).symm

/-- C10: every uploaded image's slug is derived from the owning album's
title, never from the uploaded file's name: uploading `n` files (all
passing validation and decoding) to an album titled `T` yields, in
upload order, the first `n` free candidates of the sequence
`slugify(T)`, `slugify(T)-1`, `slugify(T)-2`, …, probed unscoped against
the image-slug column. The right-hand side depends on the files only
through their count, so the assigned slugs are independent of the
uploaded file names. -/
theorem upload_images_slugs_from_album_title (storageUrl : String → String)
    (decode : List UInt8 → Option (Nat × Nat)) (st : GalleryState) (u aid : Nat)
    (files : List UploadFile) (album : AlbumRow)
    (halbum : get_album_by_user_and_id st u aid = some album)
    (hct : ∀ f ∈ files, ALLOWED_IMAGE_TYPES.contains f.content_type = true)
    (hsz : ∀ f ∈ files, f.contents.length ≤ MAX_IMAGE_SIZE_BYTES)
    (hdec : ∀ f ∈ files, (decode f.contents).isSome = true) :
    uploadedSlugs (upload_images storageUrl decode st u aid files) =
      some (firstFreeSlugs (imageSlugRecords st.images) (slugify album.title)
        files.length) := by
  unfold upload_images
  rw [halbum]
  simp only []
  obtain ⟨rows, stF, hrun, hslugs⟩ := uploadFilesGo_slugs storageUrl decode u aid album.title
    (pyStrOptFalsy album.cover_url) files 0 st hct hsz hdec
  rw [hrun]
  unfold uploadedSlugs
  simp only []
  rw [hslugs]

/-- Witness for C10: with one image already slugged `t` in the store and
an album titled `t`, uploading two files (of any names) yields slugs
`t-1` then `t-2` — the first two free candidates of the title sequence. -/
theorem upload_images_slugs_from_album_title_witness :
    uploadedSlugs (upload_images (fun k => k) (fun _ => some (1, 1))
      ⟨[⟨3, 7, "t", "t", some "c", false⟩], [⟨9, 7, 3, "u", "t", 1, 1⟩]⟩ 7 3
      [⟨"image/png", "first.png", []⟩, ⟨"image/png", "second.png", []⟩]) =
      some ["t-1", "t-2"] :=
  (upload_images_slugs_from_album_title (fun k => k) (fun _ => some (1, 1))
    ⟨[⟨3, 7, "t", "t", some "c", false⟩], [⟨9, 7, 3, "u", "t", 1, 1⟩]⟩ 7 3
    [⟨"image/png", "first.png", []⟩, ⟨"image/png", "second.png", []⟩]
    ⟨3, 7, "t", "t", some "c", false⟩ (by decide) (by decide) (by decide)
    (by decide)).trans (by decide)
